import Mathlib

/-!
Verification of the staleness-gated ETL and serving layer of `app.py`
(AgricultureML).  The development shallowly embeds:

* the Freshness Log (`update_log`, `load_log`) including the textual
  timestamp format `"%d/%m/%Y %H:%M:%S"` and Python `str.split` /
  `strptime` behaviour, over codepoint lists;
* pandas data frames (`DF`) with `pd.merge` (inner join, `_x`/`_y`
  suffixing), `drop(columns=...)`, `rename`, `dropna` (both axes),
  `drop_duplicates`, and the CSV round-trip including the
  `EmptyDataError` raised when a column-less frame is read back;
* the pipeline functions `aggregate_data`, `process_data`,
  `pre_process` and the orchestration in the `/load-data` and
  recommendation endpoints.
-/

/-- Python strings are modelled as lists of Unicode codepoints. -/
abbrev PyStr := List Nat

/-- The literal `"Last updated: "` written by `update_log` (app.py:250)
and split on by `load_log` (app.py:262). -/
def lastUpdatedMarker : PyStr :=
  [76, 97, 115, 116, 32, 117, 112, 100, 97, 116, 101, 100, 58, 32]

/-- Little-endian base-10 digit expansion with structural fuel, mirroring
how CPython renders nonnegative integers in `strftime`. -/
def digitsAux : Nat → Nat → List Nat
  | 0, _ => []
  | _ + 1, 0 => []
  | fuel + 1, n + 1 => (n + 1) % 10 :: digitsAux fuel ((n + 1) / 10)

/-- Base-10 digits of `n`, least significant first (`[]` for `0`). -/
def natDigits (n : Nat) : List Nat := digitsAux n n

/-- Decimal rendering of `n` as codepoints, most significant digit
first (empty for `0`). -/
def natChars (n : Nat) : PyStr := ((natDigits n).map (fun d => 48 + d)).reverse

/-- Two-character zero-padded rendering, as `strftime` produces for
`%d`, `%m`, `%H`, `%M`, `%S`. -/
def pad2 (n : Nat) : PyStr := if n < 10 then [48, 48 + n] else natChars n

/-- Value of a little-endian base-10 digit list. -/
def ofDigitsLE : List Nat → Nat
  | [] => 0
  | d :: ds => d + 10 * ofDigitsLE ds

/-- Numeric value of a codepoint string of decimal digits (most
significant first). -/
def valOfChars (t : PyStr) : Nat := ofDigitsLE ((t.map (fun c => c - 48)).reverse)

/-- Whether every codepoint of `t` is a decimal digit. -/
def allDigits (t : PyStr) : Bool := t.all fun c => decide (48 ≤ c) && decide (c ≤ 57)

/-- A wall-clock timestamp at second resolution, the precision of the
persisted format `"%d/%m/%Y %H:%M:%S"`. -/
structure DateTime where
  year : Nat
  month : Nat
  day : Nat
  hour : Nat
  minute : Nat
  second : Nat
deriving DecidableEq, Repr

/-- Gregorian leap-year test, as in CPython's `datetime` module. -/
def isLeap (y : Nat) : Bool := (y % 4 == 0 && y % 100 != 0) || y % 400 == 0

/-- Number of days in a month (month in `1..12`). -/
def daysInMonth (y m : Nat) : Nat :=
  match m with
  | 1 => 31
  | 2 => if isLeap y then 29 else 28
  | 3 => 31
  | 4 => 30
  | 5 => 31
  | 6 => 30
  | 7 => 31
  | 8 => 31
  | 9 => 30
  | 10 => 31
  | 11 => 30
  | 12 => 31
  | _ => 0

/-- Days in all years strictly before year `y` (proleptic Gregorian),
mirroring CPython's `datetime._days_before_year`. -/
def daysBeforeYear (y : Nat) : Nat :=
  (y - 1) * 365 + (y - 1) / 4 - (y - 1) / 100 + (y - 1) / 400

/-- Days in the given year strictly before month `m`, mirroring
CPython's `datetime._days_before_month`. -/
def daysBeforeMonth (y m : Nat) : Nat :=
  let leap := if isLeap y then 1 else 0
  match m with
  | 1 => 0
  | 2 => 31
  | 3 => 59 + leap
  | 4 => 90 + leap
  | 5 => 120 + leap
  | 6 => 151 + leap
  | 7 => 181 + leap
  | 8 => 212 + leap
  | 9 => 243 + leap
  | 10 => 273 + leap
  | 11 => 304 + leap
  | 12 => 334 + leap
  | _ => 0

/-- Proleptic-Gregorian ordinal day number, as `datetime.toordinal`. -/
def toOrdinal (d : DateTime) : Nat :=
  daysBeforeYear d.year + daysBeforeMonth d.year d.month + d.day

/-- Absolute second count of a timestamp; differences of `toSeconds`
agree with CPython `datetime` subtraction (in seconds). -/
def toSeconds (d : DateTime) : Nat :=
  toOrdinal d * 86400 + d.hour * 3600 + d.minute * 60 + d.second

/-- Validity of a timestamp as enforced by the `datetime` constructor,
restricted to four-digit years (every value `datetime.now()` returns). -/
def ValidDT (d : DateTime) : Prop :=
  1000 ≤ d.year ∧ d.year ≤ 9999 ∧ 1 ≤ d.month ∧ d.month ≤ 12 ∧
    1 ≤ d.day ∧ d.day ≤ daysInMonth d.year d.month ∧
    d.hour ≤ 23 ∧ d.minute ≤ 59 ∧ d.second ≤ 59

instance : DecidablePred ValidDT := fun d => by unfold ValidDT; infer_instance

/-- Rendering of a timestamp with `strftime("%d/%m/%Y %H:%M:%S")`
(codepoints 47, 32, 58 are `/`, space, `:`). -/
def fmtDateTime (d : DateTime) : PyStr :=
  pad2 d.day ++ [47] ++ pad2 d.month ++ [47] ++ natChars d.year ++ [32] ++
    pad2 d.hour ++ [58] ++ pad2 d.minute ++ [58] ++ pad2 d.second

/-- Python `str.split(sep)` scanner: `acc` holds the current token in
reverse; a fuel argument keeps the recursion structural. -/
def splitAux (sep : PyStr) : Nat → PyStr → PyStr → List PyStr
  | 0, acc, s => [acc.reverse ++ s]
  | fuel + 1, acc, s =>
    if sep.isPrefixOf s then
      acc.reverse :: splitAux sep fuel [] (s.drop sep.length)
    else
      match s with
      | [] => [acc.reverse]
      | c :: cs => splitAux sep fuel (c :: acc) cs

/-- Python `s.split(sep)` for a nonempty separator. -/
def pySplit (sep s : PyStr) : List PyStr := splitAux sep (s.length + 1) [] s

/-- Field matcher of CPython `_strptime` for the two-digit directives:
one digit with value at least `lo`, or two digits with value in
`[lo, hi]` (`lo = 1` for `%d`/`%m`, which exclude `00`). -/
def parse2 (lo hi : Nat) (t : PyStr) : Option Nat :=
  if allDigits t then
    match t.length with
    | 1 => if lo ≤ valOfChars t then some (valOfChars t) else none
    | 2 =>
      if lo ≤ valOfChars t ∧ valOfChars t ≤ hi then some (valOfChars t) else none
    | _ => none
  else none

/-- Field matcher of CPython `_strptime` for `%Y`: exactly four
digits. -/
def parseYear (t : PyStr) : Option Nat :=
  if allDigits t then
    match t.length with
    | 4 => some (valOfChars t)
    | _ => none
  else none

/-- `datetime.strptime(t, "%d/%m/%Y %H:%M:%S")`: `none` models the
`ValueError` raised on a malformed string or out-of-range field
(including the final `datetime` construction checks). -/
def parseDateTime (t : PyStr) : Option DateTime :=
  match pySplit [32] t with
  | [datePart, timePart] =>
    match pySplit [47] datePart, pySplit [58] timePart with
    | [ds, ms, ys], [hs, mins, ss] => do
      let d ← parse2 1 31 ds
      let m ← parse2 1 12 ms
      let y ← parseYear ys
      let h ← parse2 0 23 hs
      let mi ← parse2 0 59 mins
      let s ← parse2 0 61 ss
      if 1 ≤ y ∧ d ≤ daysInMonth y m ∧ s ≤ 59 then
        some ⟨y, m, d, h, mi, s⟩
      else none
    | _, _ => none
  | _ => none

/-- `update_log` (app.py:242-251): creates the log file if absent, then
overwrites it with `"Last updated: " + now.strftime("%d/%m/%Y %H:%M:%S")`.
The argument `now` is the current wall clock; the previous file content
is irrelevant. -/
def update_log (now : DateTime) (_prev : Option PyStr) : Option PyStr :=
  some (lastUpdatedMarker ++ fmtDateTime now)

/-- `load_log` (app.py:254-271): reads the log file, takes index `[1]`
of `read_data.split("Last updated: ")`, parses it with
`"%d/%m/%Y %H:%M:%S"`, and returns whether more than one hour has
elapsed.  Each uncaught Python exception is an `Except.error`. -/
def load_log (file : Option PyStr) (now : DateTime) : Except String Bool := do
  let read_data ←
    match file with
    | none => Except.error "FileNotFoundError"
    | some s => Except.ok s
  let part ←
    match (pySplit lastUpdatedMarker read_data)[1]? with
    | none => Except.error "IndexError"
    | some p => Except.ok p
  let new_datetime ←
    match parseDateTime part with
    | none => Except.error "ValueError"
    | some dt => Except.ok dt
  Except.ok (decide ((toSeconds now : Int) - (toSeconds new_datetime : Int) > 3600))

/-- A cell of a data frame: pandas `NaN` is `Val.null`; identifiers and
text are `Val.str`; numbers are `Val.num`. -/
inductive Val where
  | null : Val
  | str : String → Val
  | num : Int → Val
deriving DecidableEq, Repr

/-- A row of cells, positionally aligned with the column list. -/
abbrev Row := List Val

/-- A pandas `DataFrame`: a column-name list and a list of rows (each
row has one cell per column). -/
structure DF where
  cols : List String
  rows : List Row
deriving DecidableEq, Repr

/-- Cell of row `r` at column position `i`. -/
def getCell (r : Row) (i : Nat) : Val := r.getD i Val.null

/-- Column names of `pd.merge(l, r, ...)`: names occurring on both
sides are suffixed `_x` (left) and `_y` (right); all others are kept. -/
def mergeCols (lc rc : List String) : List String :=
  (lc.map fun c => if rc.contains c then c ++ "_x" else c) ++
    (rc.map fun c => if lc.contains c then c ++ "_y" else c)

/-- Right rows whose key cell (position `ri`) equals `k`. -/
def matchRows (rrows : List Row) (ri : Nat) (k : Val) : List Row :=
  rrows.filter fun rr => getCell rr ri == k

/-- Rows of an inner join: each left row is concatenated with every
right row whose key matches. -/
def mergeRows (lrows rrows : List Row) (li ri : Nat) : List Row :=
  lrows.flatMap fun lr => (matchRows rrows ri (getCell lr li)).map fun rr => lr ++ rr

/-- `pd.merge(l, r, left_on := lk, right_on := rk)` (inner join, the
default): `KeyError` if either key column is absent. -/
def merge (l r : DF) (lk rk : String) : Except String DF :=
  match l.cols.findIdx? (· == lk), r.cols.findIdx? (· == rk) with
  | some li, some ri => Except.ok ⟨mergeCols l.cols r.cols, mergeRows l.rows r.rows li ri⟩
  | _, _ => Except.error "KeyError"

/-- The cells of `r` lying in columns of `cols` not listed in `cs`. -/
def dropRowCells (cols : List String) (cs : List String) (r : Row) : Row :=
  ((cols.zip r).filter fun p => !(cs.contains p.1)).map Prod.snd

/-- `df.drop(columns := cs)` with the default `errors="raise"`: fails
with `KeyError` unless every listed column is present. -/
def dropColumns (df : DF) (cs : List String) : Except String DF :=
  if cs.all fun c => df.cols.contains c then
    Except.ok
      ⟨df.cols.filter fun c => !(cs.contains c), df.rows.map (dropRowCells df.cols cs)⟩
  else Except.error "KeyError"

/-- `df.rename(columns := {a: b})`: renames every matching label,
silently ignoring absent ones. -/
def renameCol (df : DF) (a b : String) : DF :=
  { df with cols := df.cols.map fun c => if c == a then b else c }

/-- Round-trip of a frame through `to_csv` / `read_csv`: reading the
file written for a column-less frame raises `EmptyDataError`
("No columns to parse from file"); `none` (no file) raises
`FileNotFoundError`; otherwise the frame survives unchanged. -/
def readCSVFile (file : Option DF) : Except String DF :=
  match file with
  | none => Except.error "FileNotFoundError"
  | some df => if df.cols.isEmpty then Except.error "EmptyDataError" else Except.ok df

/-- `aggregate_data` (app.py:274-294): read the four raw CSVs, join
interactions with customers on `customerId = _id`, drop `_id_y`, rename
`_id_x` to `_id`, then join products on `productId = _id` and product
categories on `productCatogoryId = _id` (no renaming after these two),
returning the frame written to `aggregated.csv`. -/
def aggregate_data (iF cF pF pcF : Option DF) : Except String DF := do
  let interactions ← readCSVFile iF
  let customers ← readCSVFile cF
  let products ← readCSVFile pF
  let prodoutCategory ← readCSVFile pcF
  let df ← merge interactions customers "customerId" "_id"
  let df ← dropColumns df ["_id_y"]
  let df := renameCol df "_id_x" "_id"
  let df ← merge df products "productId" "_id"
  let df ← merge df prodoutCategory "productCatogoryId" "_id"
  Except.ok df

/-- The fixed column drop list of `process_data` (app.py:302-303). -/
def processDropList : List String :=
  ["productCatogoryId", "_id", "AvailableQuantity", "productImage", "price", "_id_y",
    "customerPhoneNumber", "email", "customerFirstName", "customerLastName"]

/-- `process_data` (app.py:297-306): read `aggregated.csv`, drop the
fixed column list, and return the frame written to `processed.csv`. -/
def process_data (file : Option DF) : Except String DF := do
  let df ← readCSVFile file
  let df ← dropColumns df processDropList
  Except.ok df

/-- Whether column position `i` survives
`df.dropna(thresh := len(df) * 0.25, axis := 1)`: kept iff its
non-null count is at least a quarter of the row count (`0.25 * len`
is exact in binary floating point for any realistic length). -/
def keepColIdx (df : DF) (i : Nat) : Bool :=
  decide (df.rows.length ≤ 4 * (df.rows.filter fun r => getCell r i != Val.null).length)

/-- `df.dropna(thresh := len(df) * 0.25, axis := 1)`: remove columns
with more than 75 percent null values. -/
def dropSparseCols (df : DF) : DF :=
  let keep := (List.range df.cols.length).filter (keepColIdx df)
  ⟨keep.map fun i => df.cols.getD i "", df.rows.map fun r => keep.map fun i => getCell r i⟩

/-- `df.dropna()`: remove every row containing a null value. -/
def dropNaRows (df : DF) : DF :=
  { df with rows := df.rows.filter fun r => r.all fun v => v != Val.null }

/-- `df.drop_duplicates()`: keep the first occurrence of each row. -/
def dedupRowsAux (seen : List Row) : List Row → List Row
  | [] => []
  | r :: rs => if seen.contains r then dedupRowsAux seen rs else r :: dedupRowsAux (r :: seen) rs

/-- `df.drop_duplicates()` on a whole frame. -/
def dropDuplicates (df : DF) : DF := { df with rows := dedupRowsAux [] df.rows }

/-- `pre_process` (app.py:222-239): read `processed.csv`, drop columns
that are more than 75 percent null, drop null rows (twice, as in the
source), drop duplicate rows, and return the frame written to
`pre_processed.csv`. -/
def pre_process (file : Option DF) : Except String DF := do
  let df ← readCSVFile file
  let df := dropSparseCols df
  let df := dropNaRows df
  let df := dropNaRows df
  let df := dropDuplicates df
  Except.ok df

/-- The durable artifacts of the pipeline (files under `data/` plus the
freshness log `log.txt`). -/
structure PipeState where
  interactionsCSV : Option DF
  customersCSV : Option DF
  productsCSV : Option DF
  prodoutCategoryCSV : Option DF
  aggregatedCSV : Option DF
  processedCSV : Option DF
  preProcessedCSV : Option DF
  logTxt : Option PyStr
deriving DecidableEq, Repr

/-- One full pipeline run as performed by `/load-data` (app.py:352-374)
and the refresh branches of the recommendation endpoints: write the four
fetched tables, then `aggregate_data`, `process_data`, `pre_process`,
`update_log` in order.  Returns the resulting persisted state and
`some e` when a stage raised (the run stops there; later writes,
including the log update, do not happen). -/
def runPipeline (st0 : PipeState) (i c p pc : DF) (now : DateTime) :
    PipeState × Option String :=
  let st := { st0 with
    interactionsCSV := some i, customersCSV := some c,
    productsCSV := some p, prodoutCategoryCSV := some pc }
  match aggregate_data st.interactionsCSV st.customersCSV st.productsCSV
      st.prodoutCategoryCSV with
  | Except.error e => (st, some e)
  | Except.ok agg =>
    let st := { st with aggregatedCSV := some agg }
    match process_data st.aggregatedCSV with
    | Except.error e => (st, some e)
    | Except.ok proc =>
      let st := { st with processedCSV := some proc }
      match pre_process st.processedCSV with
      | Except.error e => (st, some e)
      | Except.ok pp =>
        let st := { st with preProcessedCSV := some pp }
        ({ st with logTxt := update_log now st.logTxt }, none)

/-- The `num_of_rec` value actually passed to `get_rec` by
`get_recommendation` (app.py:312-315): `if num_of_rec:` tests
truthiness, so `0` falls back to the default `5`. -/
def effectiveNumOfRec (num_of_rec : Int) : Int :=
  if num_of_rec ≠ 0 then num_of_rec else 5

/-- The same truthiness dispatch as written in
`get_recommendation_load` (app.py:344-347). -/
def effectiveNumOfRecLoad (num_of_rec : Int) : Int :=
  if num_of_rec ≠ 0 then num_of_rec else 5

/-- The same truthiness dispatch as written in
`get_recommendation_load_update` (app.py:401-404). -/
def effectiveNumOfRecLoadUpdate (num_of_rec : Int) : Int :=
  if num_of_rec ≠ 0 then num_of_rec else 5

/-- Canonical schema of the interactions extract (comment block
app.py:56-60). -/
def interactionsCols : List String := ["_id", "customerId", "productId", "interactionType"]

/-- Canonical schema of the customers extract (app.py:89-94). -/
def customersCols : List String :=
  ["_id", "customerFirstName", "customerLastName", "email", "customerPhoneNumber"]

/-- Canonical schema of the products extract (app.py:156-163). -/
def productsCols : List String :=
  ["_id", "productName", "price", "productImage", "description", "productCatogoryId",
    "AvailableQuantity"]

/-- Canonical schema of the product-categories extract
(app.py:125-128). -/
def prodoutCategoryCols : List String := ["_id", "productCatrgoryName", "productCategoryId"]

/-- The column list `aggregate_data` actually produces on canonical
inputs: three identifier columns survive — `_id_x` (interaction),
`_id_y` (product) and bare `_id` (category). -/
def aggregatedCols : List String :=
  ["_id_x", "customerId", "productId", "interactionType", "customerFirstName",
    "customerLastName", "email", "customerPhoneNumber", "_id_y", "productName", "price",
    "productImage", "description", "productCatogoryId", "AvailableQuantity", "_id",
    "productCatrgoryName", "productCategoryId"]

/-- A frame is rectangular: every row has one cell per column. -/
def Rect (df : DF) : Prop := ∀ r ∈ df.rows, r.length = df.cols.length

instance : DecidablePred Rect := fun df => by unfold Rect; infer_instance

/-- The values of the column at position `i`. -/
def colVals (df : DF) (i : Nat) : List Val := df.rows.map fun r => getCell r i

/-- Every foreign key of every interaction resolves: the customer id
(cell 1) is a customer `_id`, the product id (cell 2) is a product
`_id`, and the matched product's `productCatogoryId` (cell 5) is a
category `_id`. -/
def ResolveAll (i c p k : DF) : Prop :=
  ∀ r ∈ i.rows,
    getCell r 1 ∈ colVals c 0 ∧ getCell r 2 ∈ colVals p 0 ∧
      ∀ pr ∈ p.rows, getCell pr 0 = getCell r 2 → getCell pr 5 ∈ colVals k 0

/-- Shorthand for a string-valued cell. -/
def vs (s : String) : Val := Val.str s

/-- Concrete interactions fixture: two rows with resolvable keys. -/
def iFix : DF :=
  ⟨interactionsCols,
    [[vs "i1", vs "c1", vs "p1", Val.num 1], [vs "i2", vs "c2", vs "p2", Val.num 2]]⟩

/-- Concrete customers fixture. -/
def cFix : DF :=
  ⟨customersCols,
    [[vs "c1", vs "John", vs "Doe", vs "jd@x", vs "011"],
      [vs "c2", vs "Jane", vs "Roe", vs "jr@x", vs "022"]]⟩

/-- Concrete products fixture. -/
def pFix : DF :=
  ⟨productsCols,
    [[vs "p1", vs "Apple", Val.num 2, vs "img1", vs "red", vs "k1", Val.num 5],
      [vs "p2", vs "Pear", Val.num 3, vs "img2", vs "green", vs "k1", Val.num 6]]⟩

/-- Concrete product-categories fixture. -/
def kFix : DF := ⟨prodoutCategoryCols, [[vs "k1", vs "Fruits", Val.num 1]]⟩

/-- `pd.DataFrame([])`, the frame built from a collection that returned
zero records: it has no columns at all. -/
def emptyFetch : DF := ⟨[], []⟩

/-- A run-of-the-mill wall-clock instant used by concrete witnesses. -/
def dtNoon : DateTime := ⟨2024, 1, 1, 12, 0, 0⟩

/-- Write time for the staleness boundary witnesses. -/
def dtWrite : DateTime := ⟨2024, 5, 10, 9, 30, 0⟩

/-- Exactly one hour after `dtWrite`. -/
def dtHour : DateTime := ⟨2024, 5, 10, 10, 30, 0⟩

/-- One hour plus one second after `dtWrite`. -/
def dtHourPlus : DateTime := ⟨2024, 5, 10, 10, 30, 1⟩

/-- One hour minus one second after `dtWrite`. -/
def dtHourMinus : DateTime := ⟨2024, 5, 10, 10, 29, 59⟩

/-- A 100-row frame for the Cleaner boundary: column `sparse` has
exactly 80 null values (20 non-null < 25), column `dense` has exactly
70 null values (30 non-null ≥ 25), column `base` is never null. -/
def dfBoundary : DF :=
  ⟨["sparse", "dense", "base"],
    (List.range 100).map fun j =>
      [if j < 80 then Val.null else Val.num 1,
        if j < 70 then Val.null else Val.num 1, Val.num (Int.ofNat j)]⟩

/-- A starting pipeline state whose freshness log holds some prior
content. -/
def stPrior : PipeState :=
  ⟨none, none, none, none, none, none, none, some (lastUpdatedMarker ++ [120])⟩

/-! ## General lemmas -/

theorem contains_eq_true_iff {l : List String} {a : String} :
    l.contains a = true ↔ a ∈ l := List.elem_iff

/-- Successful run of `process_data` on a frame with columns. -/
theorem process_data_char_ok (df : DF) (hne : df.cols.isEmpty = false)
    (hall : processDropList.all (fun c => df.cols.contains c) = true) :
    process_data (some df) =
      Except.ok ⟨df.cols.filter fun c => !(processDropList.contains c),
        df.rows.map (dropRowCells df.cols processDropList)⟩ := by
  have h1 : readCSVFile (some df) = Except.ok df := by simp [readCSVFile, hne]
  have h2 : dropColumns df processDropList =
      Except.ok ⟨df.cols.filter fun c => !(processDropList.contains c),
        df.rows.map (dropRowCells df.cols processDropList)⟩ := by
    unfold dropColumns
    rw [hall]
    simp
  unfold process_data
  rw [h1]
  show dropColumns df processDropList >>= _ = _
  rw [h2]
  rfl

/-- `process_data` raises `KeyError` when a drop-list column is
missing. -/
theorem process_data_char_keyerr (df : DF) (hne : df.cols.isEmpty = false)
    (hall : processDropList.all (fun c => df.cols.contains c) = false) :
    process_data (some df) = Except.error "KeyError" := by
  have h1 : readCSVFile (some df) = Except.ok df := by simp [readCSVFile, hne]
  have h2 : dropColumns df processDropList = Except.error "KeyError" := by
    unfold dropColumns
    rw [hall]
    simp
  unfold process_data
  rw [h1]
  show dropColumns df processDropList >>= _ = _
  rw [h2]
  rfl

/-- `process_data` raises `EmptyDataError` on a column-less frame. -/
theorem process_data_char_empty (df : DF) (hne : df.cols.isEmpty = true) :
    process_data (some df) = Except.error "EmptyDataError" := by
  have : readCSVFile (some df) = Except.error "EmptyDataError" := by
    simp [readCSVFile, hne]
  unfold process_data
  rw [this]
  rfl

/-! ## C5: the Projector drops exactly the fixed exclusion list -/

/-- C5: for every input frame containing the drop list, `process_data`
succeeds, the output column set is the input's minus the fixed
exclusion list, and in particular the row identifier (`_id`), category
identifier (`productCatogoryId`), availability count, image reference,
price, and the customer contact and name columns are absent. -/
theorem process_data_drops_exclusion_list (df : DF)
    (h : ∀ c ∈ processDropList, c ∈ df.cols) :
    ∃ out, process_data (some df) = Except.ok out ∧
      out.cols = (df.cols.filter fun c => !(processDropList.contains c)) ∧
      (∀ c ∈ processDropList, c ∉ out.cols) ∧
      "_id" ∉ out.cols ∧ "productCatogoryId" ∉ out.cols ∧
      "AvailableQuantity" ∉ out.cols ∧ "productImage" ∉ out.cols ∧ "price" ∉ out.cols ∧
      "customerPhoneNumber" ∉ out.cols ∧ "email" ∉ out.cols ∧
      "customerFirstName" ∉ out.cols ∧ "customerLastName" ∉ out.cols := by
  have hne : df.cols.isEmpty = false := by
    have hm : "_id" ∈ df.cols := h "_id" (by decide)
    cases hc : df.cols with
    | nil => rw [hc] at hm; cases hm
    | cons a l => rfl
  have hall : processDropList.all (fun c => df.cols.contains c) = true := by
    rw [List.all_eq_true]
    intro c hc
    exact contains_eq_true_iff.mpr (h c hc)
  have habs : ∀ c ∈ processDropList,
      c ∉ df.cols.filter fun c => !(processDropList.contains c) := by
    intro c hc hmem
    have h2 := (List.mem_filter.mp hmem).2
    rw [contains_eq_true_iff.mpr hc] at h2
    cases h2
  refine ⟨_, process_data_char_ok df hne hall, rfl, habs, ?_, ?_, ?_, ?_, ?_, ?_, ?_, ?_, ?_⟩
  all_goals exact habs _ (by decide)

/-- Witness for C5 at the canonical aggregated schema. -/
theorem process_data_drops_exclusion_list_witness :
    (∀ c ∈ processDropList, c ∈ (DF.mk aggregatedCols []).cols) ∧
    ∃ out, process_data (some (DF.mk aggregatedCols [])) = Except.ok out ∧
      out.cols =
        ((DF.mk aggregatedCols []).cols.filter fun c => !(processDropList.contains c)) ∧
      (∀ c ∈ processDropList, c ∉ out.cols) ∧
      "_id" ∉ out.cols ∧ "productCatogoryId" ∉ out.cols ∧
      "AvailableQuantity" ∉ out.cols ∧ "productImage" ∉ out.cols ∧ "price" ∉ out.cols ∧
      "customerPhoneNumber" ∉ out.cols ∧ "email" ∉ out.cols ∧
      "customerFirstName" ∉ out.cols ∧ "customerLastName" ∉ out.cols :=
  ⟨by decide, process_data_drops_exclusion_list (DF.mk aggregatedCols []) (by decide)⟩

/-! ## C6: the Projector fails on missing columns; reapplication fails -/

/-- C6: `process_data` propagates an error whenever some drop-list
column is absent from its input, and therefore applying it a second
time to its own output always fails (the excluded columns are gone). -/
theorem process_data_missing_column_fails (df : DF) :
    (∀ c ∈ processDropList, c ∉ df.cols → ∃ e, process_data (some df) = Except.error e) ∧
    (∀ out, process_data (some df) = Except.ok out →
      ∃ e, process_data (some out) = Except.error e) := by
  constructor
  · intro c hc hnc
    cases hne : df.cols.isEmpty with
    | true => exact ⟨_, process_data_char_empty df hne⟩
    | false =>
      refine ⟨_, process_data_char_keyerr df hne ?_⟩
      cases hall : processDropList.all fun c => df.cols.contains c with
      | false => rfl
      | true =>
        have := (List.all_eq_true.mp hall) c hc
        exact absurd (contains_eq_true_iff.mp this) hnc
  · intro out hout
    have hcols : out.cols = df.cols.filter fun c => !(processDropList.contains c) := by
      cases hne : df.cols.isEmpty with
      | true => rw [process_data_char_empty df hne] at hout; cases hout
      | false =>
        cases hall : processDropList.all fun c => df.cols.contains c with
        | false => rw [process_data_char_keyerr df hne hall] at hout; cases hout
        | true =>
          rw [process_data_char_ok df hne hall] at hout
          cases hout
          rfl
    have hid : "_id" ∉ out.cols := by
      rw [hcols]
      intro hmem
      have h2 := (List.mem_filter.mp hmem).2
      rw [contains_eq_true_iff.mpr (show "_id" ∈ processDropList by decide)] at h2
      cases h2
    cases hne : out.cols.isEmpty with
    | true => exact ⟨_, process_data_char_empty out hne⟩
    | false =>
      refine ⟨_, process_data_char_keyerr out hne ?_⟩
      cases hall : processDropList.all fun c => out.cols.contains c with
      | false => rfl
      | true =>
        have := (List.all_eq_true.mp hall) "_id" (by decide)
        exact absurd (contains_eq_true_iff.mp this) hid

/-- Witness for C6: a frame missing `_id` makes `process_data` fail,
and the output of a successful run cannot be processed again. -/
theorem process_data_missing_column_fails_witness :
    ("_id" ∈ processDropList ∧ "_id" ∉ (DF.mk ["a"] []).cols ∧
      ∃ e, process_data (some (DF.mk ["a"] [])) = Except.error e) ∧
    (process_data (some (DF.mk aggregatedCols [])) =
        Except.ok (DF.mk (aggregatedCols.filter fun c => !(processDropList.contains c)) []) ∧
      ∃ e, process_data
        (some (DF.mk (aggregatedCols.filter fun c => !(processDropList.contains c)) [])) =
          Except.error e) :=
  ⟨⟨by decide, by decide,
      (process_data_missing_column_fails (DF.mk ["a"] [])).1 "_id" (by decide) (by decide)⟩,
    ⟨by rfl,
      (process_data_missing_column_fails (DF.mk aggregatedCols [])).2 _ (by rfl)⟩⟩

/-! ## C10: num_of_rec truthiness dispatch at the three endpoints -/

/-- C10: at each of the three serving endpoints, `num_of_rec = 0` is
replaced by the default `5` (the `if num_of_rec:` truthiness test), and
every nonzero value is passed through unchanged. -/
theorem num_of_rec_zero_defaults_to_five :
    ∀ n : Int,
      effectiveNumOfRec n = (if n = 0 then 5 else n) ∧
      effectiveNumOfRecLoad n = (if n = 0 then 5 else n) ∧
      effectiveNumOfRecLoadUpdate n = (if n = 0 then 5 else n) := by
  intro n
  by_cases h : n = 0 <;>
    simp [effectiveNumOfRec, effectiveNumOfRecLoad, effectiveNumOfRecLoadUpdate, h]

/-! ## C9: a zero-record raw table is fatal, not valid empty input -/

theorem except_bind_ok {α β ε : Type} (a : α) (f : α → Except ε β) :
    (Except.ok a >>= f) = f a := rfl

theorem except_bind_err {α β ε : Type} (e : ε) (f : α → Except ε β) :
    ((Except.error e : Except ε α) >>= f) = Except.error e := rfl

/-- C9 counterexample: with a zero-record interactions collection
(`pd.DataFrame([])` has no columns) and well-formed other tables, the
Joiner raises `EmptyDataError` instead of producing an empty
AggregatedTable. -/
theorem aggregate_data_empty_table_errors :
    aggregate_data (some emptyFetch) (some cFix) (some pFix) (some kFix) =
      Except.error "EmptyDataError" := rfl

/-- C9 amended: whenever any of the four raw tables was fetched with
zero records (hence has no columns), `aggregate_data` propagates an
error; zero records is fatal for the run, not valid empty input. -/
theorem aggregate_data_empty_table_fatal (i c p pc : DF)
    (h : i.cols = [] ∨ c.cols = [] ∨ p.cols = [] ∨ pc.cols = []) :
    ∃ e, aggregate_data (some i) (some c) (some p) (some pc) = Except.error e := by
  by_cases h1 : i.cols.isEmpty = true
  · exact ⟨"EmptyDataError", by simp [aggregate_data, readCSVFile, h1, except_bind_err]⟩
  · have h1' : i.cols.isEmpty = false := by
      cases hv : i.cols.isEmpty with
      | true => exact absurd hv h1
      | false => rfl
    by_cases h2 : c.cols.isEmpty = true
    · exact ⟨"EmptyDataError", by
        simp [aggregate_data, readCSVFile, h1', h2, except_bind_ok, except_bind_err]⟩
    · have h2' : c.cols.isEmpty = false := by
        cases hv : c.cols.isEmpty with
        | true => exact absurd hv h2
        | false => rfl
      by_cases h3 : p.cols.isEmpty = true
      · exact ⟨"EmptyDataError", by
          simp [aggregate_data, readCSVFile, h1', h2', h3, except_bind_ok, except_bind_err]⟩
      · have h3' : p.cols.isEmpty = false := by
          cases hv : p.cols.isEmpty with
          | true => exact absurd hv h3
          | false => rfl
        by_cases h4 : pc.cols.isEmpty = true
        · exact ⟨"EmptyDataError", by
            simp [aggregate_data, readCSVFile, h1', h2', h3', h4, except_bind_ok,
              except_bind_err]⟩
        · exfalso
          rcases h with h | h | h | h
          · rw [h] at h1'; cases h1'
          · rw [h] at h2'; cases h2'
          · rw [h] at h3'; cases h3'
          · rw [h] at h4; exact h4 rfl

/-- Witness for the amended C9. -/
theorem aggregate_data_empty_table_fatal_witness :
    (emptyFetch.cols = [] ∨ cFix.cols = [] ∨ pFix.cols = [] ∨ kFix.cols = []) ∧
    ∃ e, aggregate_data (some emptyFetch) (some cFix) (some pFix) (some kFix) =
      Except.error e :=
  ⟨Or.inl rfl, aggregate_data_empty_table_fatal _ _ _ _ (Or.inl rfl)⟩

/-! ## C3: identifier disambiguation happens only after the first join -/

/-- C3 counterexample: on concrete well-formed tables the aggregated
frame keeps the right-hand `_id` of the second join as `_id_y`, keeps
the interaction identifier as `_id_x` (not under the base name), and
the bare `_id` column (position 15) is the right-hand category
identifier — three identifier columns, not one. -/
theorem aggregate_data_keeps_right_id_suffix :
    (aggregate_data (some iFix) (some cFix) (some pFix) (some kFix)).map DF.cols =
        Except.ok aggregatedCols ∧
      "_id_y" ∈ aggregatedCols ∧ "_id_x" ∈ aggregatedCols ∧
      aggregatedCols.getD 15 "" = "_id" ∧
      (aggregatedCols.filter fun c =>
        c == "_id" || c == "_id_x" || c == "_id_y").length = 3 :=
  ⟨rfl, by decide, by decide, rfl, by decide⟩

/-- C3 amended: only the first join is normalized (`_id_y` dropped,
`_id_x` renamed to `_id`); the second and third joins keep the pandas
suffixes, so on canonical schemas the AggregatedTable columns are
exactly `aggregatedCols`, carrying three identifier columns: `_id_x`
(interaction), `_id_y` (product) and bare `_id` (category). -/
theorem aggregate_data_three_id_columns (ir cr pr kr : List Row) :
    ∃ rws, aggregate_data (some (DF.mk interactionsCols ir)) (some (DF.mk customersCols cr))
        (some (DF.mk productsCols pr)) (some (DF.mk prodoutCategoryCols kr)) =
      Except.ok (DF.mk aggregatedCols rws) :=
  ⟨_, rfl⟩

/-! ## C8: a failed run leaves the freshness log untouched -/

/-- C8: whenever any pipeline stage fails, the run stops and the
persisted freshness log is exactly what it was before the run began. -/
theorem runPipeline_failure_preserves_log (st0 : PipeState) (i c p pc : DF)
    (now : DateTime) (h : (runPipeline st0 i c p pc now).2 ≠ none) :
    (runPipeline st0 i c p pc now).1.logTxt = st0.logTxt := by
  cases hA : aggregate_data (some i) (some c) (some p) (some pc) with
  | error e => simp [runPipeline, hA]
  | ok agg =>
    cases hP : process_data (some agg) with
    | error e => simp [runPipeline, hA, hP]
    | ok proc =>
      cases hQ : pre_process (some proc) with
      | error e => simp [runPipeline, hA, hP, hQ]
      | ok pp =>
        exfalso
        apply h
        simp [runPipeline, hA, hP, hQ]

/-- Witness for C8: a failing run (empty interactions fetch) keeps the
prior log content. -/
theorem runPipeline_failure_preserves_log_witness :
    (runPipeline stPrior emptyFetch cFix pFix kFix dtNoon).2 ≠ none ∧
    (runPipeline stPrior emptyFetch cFix pFix kFix dtNoon).1.logTxt = stPrior.logTxt :=
  ⟨by decide,
    runPipeline_failure_preserves_log stPrior emptyFetch cFix pFix kFix dtNoon (by decide)⟩

/-! ## Decimal rendering and parsing lemmas -/

theorem digitsAux_lt_ten : ∀ fuel n, ∀ d ∈ digitsAux fuel n, d < 10 := by
  intro fuel
  induction fuel with
  | zero => intro n d hd; simp [digitsAux] at hd
  | succ f ih =>
    intro n d hd
    cases n with
    | zero => simp [digitsAux] at hd
    | succ m =>
      simp only [digitsAux, List.mem_cons] at hd
      rcases hd with h | h
      · subst h; exact Nat.mod_lt _ (by omega)
      · exact ih _ _ h

theorem ofDigitsLE_digitsAux : ∀ fuel n, n ≤ fuel → ofDigitsLE (digitsAux fuel n) = n := by
  intro fuel
  induction fuel with
  | zero => intro n h; interval_cases n; rfl
  | succ f ih =>
    intro n h
    cases n with
    | zero => rfl
    | succ m =>
      have hd : (m + 1) / 10 ≤ f := by
        have := Nat.div_lt_self (Nat.succ_pos m) (show 1 < 10 by omega)
        omega
      simp only [digitsAux, ofDigitsLE, ih _ hd]
      omega

theorem ofDigitsLE_natDigits (n : Nat) : ofDigitsLE (natDigits n) = n :=
  ofDigitsLE_digitsAux n n (Nat.le_refl n)

theorem digitsAux_length_le :
    ∀ fuel n k, n ≤ fuel → ((digitsAux fuel n).length ≤ k ↔ n < 10 ^ k) := by
  intro fuel
  induction fuel with
  | zero =>
    intro n k h
    interval_cases n
    simp [digitsAux]
  | succ f ih =>
    intro n k h
    cases n with
    | zero => simp [digitsAux]
    | succ m =>
      have hd : (m + 1) / 10 ≤ f := by
        have := Nat.div_lt_self (Nat.succ_pos m) (show 1 < 10 by omega)
        omega
      cases k with
      | zero =>
        simp [digitsAux, pow_zero]
      | succ k' =>
        simp only [digitsAux, List.length_cons, Nat.add_le_add_iff_right, ih _ _ hd]
        rw [pow_succ, Nat.div_lt_iff_lt_mul (show 0 < 10 by omega)]

theorem natChars_length (n : Nat) : (natChars n).length = (natDigits n).length := by
  simp [natChars]

theorem natChars_mem (n : Nat) : ∀ c ∈ natChars n, 48 ≤ c ∧ c ≤ 57 := by
  intro c hc
  simp only [natChars, List.mem_reverse, List.mem_map] at hc
  obtain ⟨d, hd, rfl⟩ := hc
  have := digitsAux_lt_ten n n d hd
  omega

theorem allDigits_natChars (n : Nat) : allDigits (natChars n) = true := by
  rw [allDigits, List.all_eq_true]
  intro c hc
  have := natChars_mem n c hc
  simp
  omega

theorem valOfChars_natChars (n : Nat) : valOfChars (natChars n) = n := by
  unfold valOfChars natChars
  rw [List.map_reverse, List.reverse_reverse, List.map_map]
  rw [List.map_congr_left (g := id) (fun d _ => by simp), List.map_id]
  exact ofDigitsLE_natDigits n

theorem natChars_len_two (n : Nat) (h1 : 10 ≤ n) (h2 : n ≤ 99) :
    (natChars n).length = 2 := by
  rw [natChars_length]
  have hle : (natDigits n).length ≤ 2 :=
    (digitsAux_length_le n n 2 (Nat.le_refl n)).mpr (by norm_num; omega)
  have hgt : ¬ (natDigits n).length ≤ 1 := fun hcon =>
    absurd ((digitsAux_length_le n n 1 (Nat.le_refl n)).mp hcon) (by norm_num; omega)
  omega

theorem natChars_len_four (y : Nat) (h1 : 1000 ≤ y) (h2 : y ≤ 9999) :
    (natChars y).length = 4 := by
  rw [natChars_length]
  have hle : (natDigits y).length ≤ 4 :=
    (digitsAux_length_le y y 4 (Nat.le_refl y)).mpr (by norm_num; omega)
  have hgt : ¬ (natDigits y).length ≤ 3 := fun hcon =>
    absurd ((digitsAux_length_le y y 3 (Nat.le_refl y)).mp hcon) (by norm_num; omega)
  omega

theorem pad2_mem (n c : Nat) (hc : c ∈ pad2 n) : 48 ≤ c ∧ c ≤ 57 := by
  unfold pad2 at hc
  by_cases h : n < 10
  · simp [h] at hc
    rcases hc with h1 | h1 <;> omega
  · simp [h] at hc
    exact natChars_mem n c hc

theorem parse2_pad2 (lo hi n : Nat) (h1 : lo ≤ n) (h2 : n ≤ hi) (h99 : hi ≤ 99) :
    parse2 lo hi (pad2 n) = some n := by
  unfold pad2
  by_cases h : n < 10
  · have hAD : allDigits [48, 48 + n] = true := by
      simp [allDigits]
      omega
    have hv : valOfChars [48, 48 + n] = n := by
      simp [valOfChars, ofDigitsLE]
    simp [h, parse2, hAD, hv, h1, h2]
  · have h10 : 10 ≤ n := by omega
    have hlen := natChars_len_two n h10 (by omega)
    simp [h, parse2, allDigits_natChars, hlen, valOfChars_natChars, h1, h2]

theorem parseYear_natChars (y : Nat) (h1 : 1000 ≤ y) (h2 : y ≤ 9999) :
    parseYear (natChars y) = some y := by
  simp [parseYear, allDigits_natChars, natChars_len_four y h1 h2, valOfChars_natChars]

/-! ## Python str.split lemmas -/

theorem isPrefixOf_self_append (l r : PyStr) : l.isPrefixOf (l ++ r) = true := by
  rw [List.isPrefixOf_iff_prefix]
  exact List.prefix_append _ _

theorem isPrefixOf_cons_ne (c0 x : Nat) (sep t : PyStr) (h : x ≠ c0) :
    (c0 :: sep).isPrefixOf (x :: t) = false := by
  simp [List.isPrefixOf]
  intro hc
  exact absurd hc.symm h

theorem splitAux_fuel_irrel (c0 : Nat) (sep : PyStr) :
    ∀ fuel fuel' acc s, s.length < fuel → s.length < fuel' →
      splitAux (c0 :: sep) fuel acc s = splitAux (c0 :: sep) fuel' acc s := by
  intro fuel
  induction fuel with
  | zero => intro fuel' acc s h h'; omega
  | succ f ih =>
    intro fuel' acc s h h'
    cases fuel' with
    | zero => omega
    | succ g =>
      by_cases hp : (c0 :: sep).isPrefixOf s = true
      · have hs : s ≠ [] := by
          intro he
          subst he
          simp [List.isPrefixOf] at hp
        simp only [splitAux, hp, if_true]
        congr 1
        apply ih
        · have := List.length_drop ((c0 :: sep).length) s
          cases s with
          | nil => exact absurd rfl hs
          | cons b bs => simp at h ⊢; omega
        · have := List.length_drop ((c0 :: sep).length) s
          cases s with
          | nil => exact absurd rfl hs
          | cons b bs => simp at h' ⊢; omega
      · have hp' : (c0 :: sep).isPrefixOf s = false := by
          cases hv : (c0 :: sep).isPrefixOf s with
          | true => exact absurd hv hp
          | false => rfl
        cases s with
        | nil => simp [splitAux, hp']
        | cons b bs =>
          simp only [splitAux, hp', Bool.false_eq_true, if_false]
          apply ih
          · simp at h; omega
          · simp at h'; omega

theorem splitAux_no_occur (c0 : Nat) (sep : PyStr) :
    ∀ fuel acc s, c0 ∉ s → s.length < fuel →
      splitAux (c0 :: sep) fuel acc s = [acc.reverse ++ s] := by
  intro fuel
  induction fuel with
  | zero => intro acc s h hl; omega
  | succ f ih =>
    intro acc s h hl
    cases s with
    | nil => simp [splitAux, List.isPrefixOf]
    | cons b bs =>
      have hb : b ≠ c0 := by
        intro he
        exact h (he ▸ List.mem_cons_self b bs)
      have hp := isPrefixOf_cons_ne c0 b sep bs hb
      simp only [splitAux, hp, Bool.false_eq_true, if_false]
      rw [ih (b :: acc) bs (fun hm => h (List.mem_cons_of_mem b hm)) (by simp at hl; omega)]
      simp

theorem pySplit_no_occur (c0 : Nat) (sep s : PyStr) (h : c0 ∉ s) :
    pySplit (c0 :: sep) s = [s] := by
  unfold pySplit
  rw [splitAux_no_occur c0 sep (s.length + 1) [] s h (by omega)]
  rfl

theorem splitAux_consume (c0 : Nat) (sep : PyStr) :
    ∀ (a : PyStr) (fuel : Nat) (acc rest : PyStr), c0 ∉ a →
      (a ++ (c0 :: sep) ++ rest).length < fuel →
      splitAux (c0 :: sep) fuel acc (a ++ (c0 :: sep) ++ rest) =
        (acc.reverse ++ a) :: pySplit (c0 :: sep) rest := by
  intro a
  induction a with
  | nil =>
    intro fuel acc rest ha hlen
    cases fuel with
    | zero => simp at hlen
    | succ f =>
      simp only [List.nil_append]
      have hp := isPrefixOf_self_append (c0 :: sep) rest
      simp only [splitAux, hp, if_true]
      rw [List.drop_left]
      rw [splitAux_fuel_irrel c0 sep f (rest.length + 1) [] rest ?hf (by omega)]
      · simp [pySplit]
      case hf =>
        simp at hlen
        omega
  | cons x a' ih =>
    intro fuel acc rest ha hlen
    cases fuel with
    | zero => simp at hlen
    | succ f =>
      have hx : x ≠ c0 := by
        intro he
        exact ha (he ▸ List.mem_cons_self x a')
      have ha' : c0 ∉ a' := fun hm => ha (List.mem_cons_of_mem x hm)
      have hshape : (x :: a') ++ (c0 :: sep) ++ rest = x :: (a' ++ (c0 :: sep) ++ rest) := by
        simp
      rw [hshape]
      have hp := isPrefixOf_cons_ne c0 x sep (a' ++ (c0 :: sep) ++ rest) hx
      simp only [splitAux, hp, Bool.false_eq_true, if_false]
      rw [ih f (x :: acc) rest ha' (by simp at hlen ⊢; omega)]
      simp

theorem pySplit_consume (c0 : Nat) (sep a rest : PyStr) (h : c0 ∉ a) :
    pySplit (c0 :: sep) (a ++ (c0 :: sep) ++ rest) = a :: pySplit (c0 :: sep) rest := by
  have := splitAux_consume c0 sep a ((a ++ (c0 :: sep) ++ rest).length + 1) [] rest h
    (by omega)
  simpa [pySplit] using this

/-! ## strftime/strptime round trip -/

theorem daysInMonth_le (y m : Nat) : daysInMonth y m ≤ 31 := by
  unfold daysInMonth
  split <;> first | omega | (split <;> omega)

theorem no47_pad2 (n : Nat) : 47 ∉ pad2 n := fun h => by
  have := pad2_mem n 47 h
  omega

theorem no58_pad2 (n : Nat) : 58 ∉ pad2 n := fun h => by
  have := pad2_mem n 58 h
  omega

theorem no47_natChars (n : Nat) : 47 ∉ natChars n := fun h => by
  have := natChars_mem n 47 h
  omega

theorem date_part_bound (w : DateTime) :
    ∀ c ∈ pad2 w.day ++ [47] ++ (pad2 w.month ++ [47] ++ natChars w.year),
      (48 ≤ c ∧ c ≤ 57) ∨ c = 47 := by
  simp only [List.forall_mem_append]
  repeat' constructor
  all_goals intro c hc
  all_goals
    first
    | exact Or.inl (pad2_mem _ c hc)
    | exact Or.inl (natChars_mem _ c hc)
    | (simp at hc; omega)

theorem time_part_bound (w : DateTime) :
    ∀ c ∈ pad2 w.hour ++ [58] ++ (pad2 w.minute ++ [58] ++ pad2 w.second),
      (48 ≤ c ∧ c ≤ 57) ∨ c = 58 := by
  simp only [List.forall_mem_append]
  repeat' constructor
  all_goals intro c hc
  all_goals
    first
    | exact Or.inl (pad2_mem _ c hc)
    | (simp at hc; omega)

theorem no32_date (w : DateTime) :
    32 ∉ pad2 w.day ++ [47] ++ (pad2 w.month ++ [47] ++ natChars w.year) := fun hm => by
  rcases date_part_bound w 32 hm with h | h <;> omega

theorem no32_time (w : DateTime) :
    32 ∉ pad2 w.hour ++ [58] ++ (pad2 w.minute ++ [58] ++ pad2 w.second) := fun hm => by
  rcases time_part_bound w 32 hm with h | h <;> omega

theorem fmt_mem_le (w : DateTime) : ∀ c ∈ fmtDateTime w, c ≤ 58 := by
  intro c hc
  have heq : fmtDateTime w =
      (pad2 w.day ++ [47] ++ (pad2 w.month ++ [47] ++ natChars w.year)) ++ [32] ++
        (pad2 w.hour ++ [58] ++ (pad2 w.minute ++ [58] ++ pad2 w.second)) := by
    simp [fmtDateTime]
  rw [heq] at hc
  rcases List.mem_append.mp hc with h | h
  · rcases List.mem_append.mp h with h | h
    · rcases date_part_bound w c h with h1 | h1 <;> omega
    · simp at h; omega
  · rcases time_part_bound w c h with h1 | h1 <;> omega

theorem option_bind_some {α β : Type} (a : α) (f : α → Option β) :
    (some a >>= f) = f a := rfl

theorem parseDateTime_fmt (w : DateTime) (hw : ValidDT w) :
    parseDateTime (fmtDateTime w) = some w := by
  obtain ⟨hy1, hy2, hm1, hm2, hd1, hd2, hh, hmi, hs⟩ := hw
  have hdm := daysInMonth_le w.year w.month
  have heq : fmtDateTime w =
      (pad2 w.day ++ [47] ++ (pad2 w.month ++ [47] ++ natChars w.year)) ++ [32] ++
        (pad2 w.hour ++ [58] ++ (pad2 w.minute ++ [58] ++ pad2 w.second)) := by
    simp [fmtDateTime]
  have h32 : pySplit [32] (fmtDateTime w) =
      [pad2 w.day ++ [47] ++ (pad2 w.month ++ [47] ++ natChars w.year),
        pad2 w.hour ++ [58] ++ (pad2 w.minute ++ [58] ++ pad2 w.second)] := by
    rw [heq, pySplit_consume 32 [] _ _ (no32_date w),
      pySplit_no_occur 32 [] _ (no32_time w)]
  have hdate : pySplit [47]
      (pad2 w.day ++ [47] ++ (pad2 w.month ++ [47] ++ natChars w.year)) =
      [pad2 w.day, pad2 w.month, natChars w.year] := by
    rw [pySplit_consume 47 [] _ _ (no47_pad2 w.day),
      pySplit_consume 47 [] _ _ (no47_pad2 w.month),
      pySplit_no_occur 47 [] _ (no47_natChars w.year)]
  have htime : pySplit [58]
      (pad2 w.hour ++ [58] ++ (pad2 w.minute ++ [58] ++ pad2 w.second)) =
      [pad2 w.hour, pad2 w.minute, pad2 w.second] := by
    rw [pySplit_consume 58 [] _ _ (no58_pad2 w.hour),
      pySplit_consume 58 [] _ _ (no58_pad2 w.minute),
      pySplit_no_occur 58 [] _ (no58_pad2 w.second)]
  have hD := parse2_pad2 1 31 w.day hd1 (le_trans hd2 hdm) (by omega)
  have hM := parse2_pad2 1 12 w.month hm1 hm2 (by omega)
  have hY := parseYear_natChars w.year hy1 hy2
  have hH := parse2_pad2 0 23 w.hour (Nat.zero_le _) hh (by omega)
  have hMi := parse2_pad2 0 59 w.minute (Nat.zero_le _) hmi (by omega)
  have hS := parse2_pad2 0 61 w.second (Nat.zero_le _) (by omega) (by omega)
  simp only [parseDateTime, h32, hdate, htime, hD, hM, hY, hH, hMi, hS, option_bind_some]
  rw [if_pos ⟨show 1 ≤ w.year by omega, hd2, hs⟩]

/-! ## C2: staleness is strict greater-than one hour -/

/-- C2: for every timestamp persisted by `update_log` and every current
instant, `load_log` returns `true` exactly when the elapsed time
strictly exceeds one hour (3600 seconds); at exactly one hour it
returns `false`. -/
theorem load_log_stale_iff_elapsed_gt_hour (w now : DateTime) (prev : Option PyStr)
    (hw : ValidDT w) :
    load_log (update_log w prev) now =
      Except.ok (decide ((toSeconds now : Int) - (toSeconds w : Int) > 3600)) := by
  have h76 : 76 ∉ fmtDateTime w := fun hm => by
    have := fmt_mem_le w 76 hm
    omega
  have hsplit : pySplit lastUpdatedMarker (lastUpdatedMarker ++ fmtDateTime w) =
      [[], fmtDateTime w] := by
    have h1 := pySplit_consume 76 [97, 115, 116, 32, 117, 112, 100, 97, 116, 101, 100, 58, 32]
      [] (fmtDateTime w) (by simp)
    rw [pySplit_no_occur 76 _ _ h76] at h1
    simpa [lastUpdatedMarker] using h1
  simp [load_log, update_log, except_bind_ok, hsplit, parseDateTime_fmt w hw]

/-- Witness for C2 at the one-hour boundary: elapsed exactly 3600
seconds is not stale, 3601 is stale, 3599 is not. -/
theorem load_log_stale_iff_elapsed_gt_hour_witness :
    ValidDT dtWrite ∧
    load_log (update_log dtWrite none) dtHour = Except.ok false ∧
    load_log (update_log dtWrite none) dtHourPlus = Except.ok true ∧
    load_log (update_log dtWrite none) dtHourMinus = Except.ok false :=
  ⟨by decide,
    (load_log_stale_iff_elapsed_gt_hour dtWrite dtHour none (by decide)).trans (by rfl),
    (load_log_stale_iff_elapsed_gt_hour dtWrite dtHourPlus none (by decide)).trans (by rfl),
    (load_log_stale_iff_elapsed_gt_hour dtWrite dtHourMinus none (by decide)).trans (by rfl)⟩

/-! ## C1: a missing or malformed freshness record raises -/

/-- C1 counterexample: with no record `load_log` raises
`FileNotFoundError`; on content `"garbage"` it raises `IndexError`; on
`"Last updated: tomorrow"` it raises `ValueError` — it never returns
the claimed "stale" result in these situations. -/
theorem load_log_missing_or_malformed_raises :
    load_log none dtNoon = Except.error "FileNotFoundError" ∧
    load_log (some [103, 97, 114, 98, 97, 103, 101]) dtNoon = Except.error "IndexError" ∧
    load_log (some (lastUpdatedMarker ++ [116, 111, 109, 111, 114, 114, 111, 119])) dtNoon =
      Except.error "ValueError" :=
  ⟨rfl, rfl, rfl⟩

/-- C1 amended: when no freshness record exists `load_log` propagates
`FileNotFoundError`; when the record lacks the `"Last updated: "`
marker it propagates `IndexError`; when the extracted timestamp does
not parse it propagates `ValueError`.  The staleness test never
fails open toward "stale" on these inputs. -/
theorem load_log_error_propagation (now : DateTime) (s : PyStr) :
    load_log none now = Except.error "FileNotFoundError" ∧
    ((pySplit lastUpdatedMarker s)[1]? = none →
      load_log (some s) now = Except.error "IndexError") ∧
    (∀ part, (pySplit lastUpdatedMarker s)[1]? = some part → parseDateTime part = none →
      load_log (some s) now = Except.error "ValueError") := by
  refine ⟨rfl, fun h => ?_, fun part h1 h2 => ?_⟩
  · simp [load_log, except_bind_ok, except_bind_err, h]
  · simp [load_log, except_bind_ok, except_bind_err, h1, h2]

/-- Witness for the amended C1 on concrete malformed contents. -/
theorem load_log_error_propagation_witness :
    ((pySplit lastUpdatedMarker [103, 97, 114, 98, 97, 103, 101])[1]? = none ∧
      load_log (some [103, 97, 114, 98, 97, 103, 101]) dtNoon = Except.error "IndexError") ∧
    ((pySplit lastUpdatedMarker (lastUpdatedMarker ++ [120]))[1]? = some [120] ∧
      parseDateTime [120] = none ∧
      load_log (some (lastUpdatedMarker ++ [120])) dtNoon = Except.error "ValueError") :=
  ⟨⟨by decide, (load_log_error_propagation dtNoon [103, 97, 114, 98, 97, 103, 101]).2.1
      (by decide)⟩,
    ⟨by decide, by decide,
      (load_log_error_propagation dtNoon (lastUpdatedMarker ++ [120])).2.2 [120]
        (by decide) (by decide)⟩⟩

/-! ## C7: the Cleaner's column-survival threshold -/

/-- C7: `pre_process` keeps a column exactly when its non-null count is
at least 25 percent of the row count; equivalently it drops a column
exactly when more than 75 percent of its values are null. -/
theorem pre_process_column_survival_threshold (df : DF) (hne : df.cols ≠ [])
    (hnd : df.cols.Nodup) (i : Nat) (hi : i < df.cols.length) :
    ∃ out, pre_process (some df) = Except.ok out ∧
      (df.cols.getD i "" ∈ out.cols ↔
        df.rows.length ≤ 4 * (df.rows.filter fun r => getCell r i != Val.null).length) := by
  have hempty : df.cols.isEmpty = false := by
    cases hc : df.cols with
    | nil => exact absurd hc hne
    | cons a l => rfl
  have h1 : readCSVFile (some df) = Except.ok df := by simp [readCSVFile, hempty]
  refine ⟨dropDuplicates (dropNaRows (dropNaRows (dropSparseCols df))), ?_, ?_⟩
  · unfold pre_process
    rw [h1]
    rfl
  · have hcols : (dropDuplicates (dropNaRows (dropNaRows (dropSparseCols df)))).cols =
        ((List.range df.cols.length).filter (keepColIdx df)).map
          (fun j => df.cols.getD j "") := rfl
    rw [hcols]
    constructor
    · intro hmem
      obtain ⟨j, hj, hje⟩ := List.mem_map.mp hmem
      have hjr := List.mem_filter.mp hj
      have hjlen : j < df.cols.length := List.mem_range.mp hjr.1
      have hkeep := hjr.2
      have hji : j = i := by
        have e1 : df.cols.getD j "" = df.cols[j] := List.getD_eq_getElem _ _ hjlen
        have e2 : df.cols.getD i "" = df.cols[i] := List.getD_eq_getElem _ _ hi
        rw [e1, e2] at hje
        exact (List.Nodup.getElem_inj_iff hnd).mp hje
      subst hji
      unfold keepColIdx at hkeep
      exact of_decide_eq_true hkeep
    · intro hle
      apply List.mem_map.mpr
      refine ⟨i, List.mem_filter.mpr ⟨List.mem_range.mpr hi, ?_⟩, rfl⟩
      unfold keepColIdx
      exact decide_eq_true hle

/-- Witness for C7 at the 100-row boundary frame: the 80-percent-null
column `sparse` (position 0) is dropped, the 70-percent-null column
`dense` (position 1) is retained. -/
theorem pre_process_column_survival_threshold_witness :
    (dfBoundary.cols ≠ [] ∧ dfBoundary.cols.Nodup ∧ 0 < dfBoundary.cols.length ∧
      1 < dfBoundary.cols.length) ∧
    (∃ out, pre_process (some dfBoundary) = Except.ok out ∧
      (dfBoundary.cols.getD 0 "" ∈ out.cols ↔
        dfBoundary.rows.length ≤
          4 * (dfBoundary.rows.filter fun r => getCell r 0 != Val.null).length)) ∧
    (∃ out, pre_process (some dfBoundary) = Except.ok out ∧
      (dfBoundary.cols.getD 1 "" ∈ out.cols ↔
        dfBoundary.rows.length ≤
          4 * (dfBoundary.rows.filter fun r => getCell r 1 != Val.null).length)) :=
  ⟨⟨by decide, by decide, by decide, by decide⟩,
    pre_process_column_survival_threshold dfBoundary (by decide) (by decide) 0 (by decide),
    pre_process_column_survival_threshold dfBoundary (by decide) (by decide) 1 (by decide)⟩

/-! ## Inner-join counting lemmas -/

theorem sum_le_length_of_le_one :
    ∀ xs : List Nat, (∀ x ∈ xs, x ≤ 1) → xs.sum ≤ xs.length := by
  intro xs
  induction xs with
  | nil => intro h; simp
  | cons a l ih =>
    intro h
    have ha := h a (List.mem_cons_self a l)
    have hl := ih fun x hx => h x (List.mem_cons_of_mem a hx)
    simp only [List.sum_cons, List.length_cons]
    omega

theorem sum_eq_length_iff_all_one :
    ∀ xs : List Nat, (∀ x ∈ xs, x ≤ 1) → (xs.sum = xs.length ↔ ∀ x ∈ xs, x = 1) := by
  intro xs
  induction xs with
  | nil => intro h; simp
  | cons a l ih =>
    intro h
    have ha := h a (List.mem_cons_self a l)
    have hl := fun x hx => h x (List.mem_cons_of_mem a hx)
    have hsum := sum_le_length_of_le_one l hl
    simp only [List.sum_cons, List.length_cons]
    rw [List.forall_mem_cons]
    constructor
    · intro he
      have h1 : a = 1 := by omega
      have h2 : l.sum = l.length := by omega
      exact ⟨h1, (ih hl).mp h2⟩
    · rintro ⟨rfl, hall⟩
      rw [(ih hl).mpr hall]
      omega

theorem matchRows_length_eq_count (rrows : List Row) (ri : Nat) (k : Val) :
    (matchRows rrows ri k).length = (rrows.map fun r => getCell r ri).count k := by
  calc (matchRows rrows ri k).length
      = List.countP (fun r => getCell r ri == k) rrows :=
        (List.countP_eq_length_filter _ _).symm
    _ = List.countP ((· == k) ∘ fun r => getCell r ri) rrows := rfl
    _ = (rrows.map fun r => getCell r ri).count k := (List.countP_map _ _ _).symm

theorem matchRows_length_le_one (rrows : List Row) (ri : Nat) (k : Val)
    (h : (rrows.map fun r => getCell r ri).Nodup) : (matchRows rrows ri k).length ≤ 1 := by
  rw [matchRows_length_eq_count]
  exact List.nodup_iff_count_le_one.mp h k

theorem matchRows_length_pos_iff (rrows : List Row) (ri : Nat) (k : Val) :
    0 < (matchRows rrows ri k).length ↔ k ∈ rrows.map fun r => getCell r ri := by
  rw [matchRows_length_eq_count]
  exact List.count_pos_iff

theorem mergeRows_length_eq_sum (lrows rrows : List Row) (li ri : Nat) :
    (mergeRows lrows rrows li ri).length =
      (lrows.map fun lr => (matchRows rrows ri (getCell lr li)).length).sum := by
  unfold mergeRows
  rw [List.length_flatMap]
  congr 1
  apply List.map_congr_left
  intro lr _
  simp

theorem mergeRows_length_le (lrows rrows : List Row) (li ri : Nat)
    (h : (rrows.map fun r => getCell r ri).Nodup) :
    (mergeRows lrows rrows li ri).length ≤ lrows.length := by
  rw [mergeRows_length_eq_sum]
  have hb : ∀ x ∈ lrows.map fun lr => (matchRows rrows ri (getCell lr li)).length, x ≤ 1 := by
    intro x hx
    obtain ⟨lr, _, rfl⟩ := List.mem_map.mp hx
    exact matchRows_length_le_one rrows ri _ h
  have := sum_le_length_of_le_one _ hb
  rwa [List.length_map] at this

theorem mergeRows_length_eq_iff (lrows rrows : List Row) (li ri : Nat)
    (h : (rrows.map fun r => getCell r ri).Nodup) :
    (mergeRows lrows rrows li ri).length = lrows.length ↔
      ∀ lr ∈ lrows, getCell lr li ∈ rrows.map fun r => getCell r ri := by
  rw [mergeRows_length_eq_sum]
  have hb : ∀ x ∈ lrows.map fun lr => (matchRows rrows ri (getCell lr li)).length, x ≤ 1 := by
    intro x hx
    obtain ⟨lr, _, rfl⟩ := List.mem_map.mp hx
    exact matchRows_length_le_one rrows ri _ h
  have hlen : lrows.length =
      (lrows.map fun lr => (matchRows rrows ri (getCell lr li)).length).length := by
    rw [List.length_map]
  rw [hlen, sum_eq_length_iff_all_one _ hb]
  constructor
  · intro hall lr hlr
    have h1 := hall _ (List.mem_map_of_mem _ hlr)
    rw [← matchRows_length_pos_iff]
    omega
  · intro hall x hx
    obtain ⟨lr, hlr, rfl⟩ := List.mem_map.mp hx
    have hpos := (matchRows_length_pos_iff rrows ri (getCell lr li)).mpr (hall lr hlr)
    have hle := matchRows_length_le_one rrows ri (getCell lr li) h
    omega

theorem mergeRows_mem (lrows rrows : List Row) (li ri : Nat) (ar : Row) :
    ar ∈ mergeRows lrows rrows li ri ↔
      ∃ lr ∈ lrows, ∃ rr ∈ rrows, getCell rr ri = getCell lr li ∧ ar = lr ++ rr := by
  constructor
  · intro hmem
    obtain ⟨lr, hlr, hm⟩ := List.mem_flatMap.mp hmem
    obtain ⟨rr, hrr, rfl⟩ := List.mem_map.mp hm
    have hf := List.mem_filter.mp hrr
    exact ⟨lr, hlr, rr, hf.1, by simpa using hf.2, rfl⟩
  · rintro ⟨lr, hlr, rr, hrr, hk, rfl⟩
    apply List.mem_flatMap.mpr
    refine ⟨lr, hlr, List.mem_map.mpr ⟨rr, List.mem_filter.mpr ⟨hrr, by simpa using hk⟩, rfl⟩⟩

/-! ## C4: join-loss and row-count characterization -/

theorem aggregate_data_rows_eq (ir cr pr kr : List Row) :
    aggregate_data (some (DF.mk interactionsCols ir)) (some (DF.mk customersCols cr))
      (some (DF.mk productsCols pr)) (some (DF.mk prodoutCategoryCols kr)) =
    Except.ok (DF.mk aggregatedCols
      (mergeRows
        (mergeRows
          ((mergeRows ir cr 1 0).map
            (dropRowCells (mergeCols interactionsCols customersCols) ["_id_y"]))
          pr 2 0)
        kr 13 0)) := rfl

theorem exists_len_cons {α : Type} (l : List α) (n : Nat) (h : l.length = n + 1) :
    ∃ a t, l = a :: t ∧ t.length = n := by
  obtain ⟨a, t, rfl⟩ := List.exists_of_length_succ l h
  exact ⟨a, t, rfl, by simpa using h⟩

theorem dropRow_merge1 (lr cr : Row) (h4 : lr.length = 4) (h5 : cr.length = 5) :
    dropRowCells (mergeCols interactionsCols customersCols) ["_id_y"] (lr ++ cr) =
      lr ++ cr.tail := by
  obtain ⟨a1, lr, rfl, ha⟩ := exists_len_cons lr 3 h4
  obtain ⟨a2, lr, rfl, hb⟩ := exists_len_cons lr 2 ha
  obtain ⟨a3, lr, rfl, hc⟩ := exists_len_cons lr 1 hb
  obtain ⟨a4, lr, rfl, hd⟩ := exists_len_cons lr 0 hc
  rw [List.length_eq_zero] at hd
  subst hd
  obtain ⟨c1, cr, rfl, he⟩ := exists_len_cons cr 4 h5
  obtain ⟨c2, cr, rfl, hf⟩ := exists_len_cons cr 3 he
  obtain ⟨c3, cr, rfl, hg⟩ := exists_len_cons cr 2 hf
  obtain ⟨c4, cr, rfl, hh⟩ := exists_len_cons cr 1 hg
  obtain ⟨c5, cr, rfl, hi⟩ := exists_len_cons cr 0 hh
  rw [List.length_eq_zero] at hi
  subst hi
  rfl

theorem getCell_append_left (r s : Row) (i : Nat) (h : i < r.length) :
    getCell (r ++ s) i = getCell r i := List.getD_append r s Val.null i h

theorem getCell_append_right (r s : Row) (i : Nat) (h : r.length ≤ i) :
    getCell (r ++ s) i = getCell s (i - r.length) := List.getD_append_right r s Val.null i h

/-- C4: on well-formed raw tables (canonical schemas, rectangular rows,
unique dimension identifiers) the Joiner succeeds, AggregatedTable has
at most as many rows as the interactions table, with equality exactly
when every interaction's customer, product, and (via its product)
category foreign keys resolve; and an interaction with a dangling
product reference yields no aggregated row extending it. -/
theorem aggregate_data_rowcount
    (interactions customers products prodoutCategory : DF)
    (hic : interactions.cols = interactionsCols) (hir : Rect interactions)
    (hcc : customers.cols = customersCols) (hcr : Rect customers)
    (hcn : (colVals customers 0).Nodup)
    (hpc : products.cols = productsCols) (hpr : Rect products)
    (hpn : (colVals products 0).Nodup)
    (hkc : prodoutCategory.cols = prodoutCategoryCols) (hkr : Rect prodoutCategory)
    (hkn : (colVals prodoutCategory 0).Nodup) :
    ∃ agg, aggregate_data (some interactions) (some customers) (some products)
        (some prodoutCategory) = Except.ok agg ∧
      agg.rows.length ≤ interactions.rows.length ∧
      (agg.rows.length = interactions.rows.length ↔
        ResolveAll interactions customers products prodoutCategory) ∧
      (∀ r ∈ interactions.rows, getCell r 2 ∉ colVals products 0 →
        ∀ ar ∈ agg.rows, ¬ r <+: ar) := by
  obtain ⟨icols, ir⟩ := interactions
  obtain ⟨ccols, cr⟩ := customers
  obtain ⟨pcols, pr⟩ := products
  obtain ⟨kcols, kr⟩ := prodoutCategory
  dsimp only at hic hcc hpc hkc
  subst hic
  subst hcc
  subst hpc
  subst hkc
  have hir4 : ∀ r ∈ ir, r.length = 4 := fun r hr => hir r hr
  have hcr5 : ∀ r ∈ cr, r.length = 5 := fun r hr => hcr r hr
  have hcn' : (cr.map fun r => getCell r 0).Nodup := hcn
  have hpn' : (pr.map fun r => getCell r 0).Nodup := hpn
  have hkn' : (kr.map fun r => getCell r 0).Nodup := hkn
  rw [aggregate_data_rows_eq]
  set dropF := dropRowCells (mergeCols interactionsCols customersCols) ["_id_y"] with hdropF
  set R1 := mergeRows ir cr 1 0 with hR1
  set R1A := R1.map dropF with hR1A
  set R2 := mergeRows R1A pr 2 0 with hR2
  set R3 := mergeRows R2 kr 13 0 with hR3
  have len1 : R1A.length = R1.length := List.length_map _ _
  have le1 : R1.length ≤ ir.length := mergeRows_length_le ir cr 1 0 hcn'
  have le2 : R2.length ≤ R1A.length := mergeRows_length_le R1A pr 2 0 hpn'
  have le3 : R3.length ≤ R2.length := mergeRows_length_le R2 kr 13 0 hkn'
  have hshape1 : ∀ dr ∈ R1A, ∃ lr crow, lr ∈ ir ∧ crow ∈ cr ∧
      getCell crow 0 = getCell lr 1 ∧ dr = lr ++ crow.tail ∧ dr.length = 8 ∧
      getCell dr 2 = getCell lr 2 := by
    intro dr hdr
    obtain ⟨d0, hd0, rfl⟩ := List.mem_map.mp hdr
    obtain ⟨lr, hlr, crow, hcrow, hk, rfl⟩ := (mergeRows_mem ir cr 1 0 d0).mp hd0
    have h4 := hir4 lr hlr
    have h5 := hcr5 crow hcrow
    have hdv : dropF (lr ++ crow) = lr ++ crow.tail := by
      rw [hdropF]
      exact dropRow_merge1 lr crow h4 h5
    refine ⟨lr, crow, hlr, hcrow, hk, hdv, ?_, ?_⟩
    · rw [hdv]
      simp [List.length_tail]
      omega
    · rw [hdv]
      exact getCell_append_left lr crow.tail 2 (by omega)
  have hconstruct1 : ∀ lr ∈ ir, ∀ crow ∈ cr, getCell crow 0 = getCell lr 1 →
      (lr ++ crow.tail) ∈ R1A := by
    intro lr hlr crow hcrow hk
    have hmem : (lr ++ crow) ∈ R1 := (mergeRows_mem ir cr 1 0 _).mpr
      ⟨lr, hlr, crow, hcrow, hk, rfl⟩
    have hmm := List.mem_map_of_mem dropF hmem
    rw [hdropF] at hmm
    rwa [dropRow_merge1 lr crow (hir4 lr hlr) (hcr5 crow hcrow)] at hmm
  have hlen8 : ∀ dr ∈ R1A, dr.length = 8 := by
    intro dr hdr
    obtain ⟨lr, crow, _, _, _, _, h8, _⟩ := hshape1 dr hdr
    exact h8
  have hshape2 : ∀ dr2 ∈ R2, ∃ dr1 prow, dr1 ∈ R1A ∧ prow ∈ pr ∧
      getCell prow 0 = getCell dr1 2 ∧ dr2 = dr1 ++ prow ∧
      getCell dr2 13 = getCell prow 5 := by
    intro dr2 hdr2
    obtain ⟨dr1, hdr1, prow, hprow, hk, rfl⟩ := (mergeRows_mem R1A pr 2 0 dr2).mp hdr2
    have h8 := hlen8 dr1 hdr1
    refine ⟨dr1, prow, hdr1, hprow, hk, rfl, ?_⟩
    rw [getCell_append_right dr1 prow 13 (by omega), h8]
  have hconstruct2 : ∀ dr1 ∈ R1A, ∀ prow ∈ pr, getCell prow 0 = getCell dr1 2 →
      (dr1 ++ prow) ∈ R2 :=
    fun dr1 hdr1 prow hprow hk =>
      (mergeRows_mem R1A pr 2 0 _).mpr ⟨dr1, hdr1, prow, hprow, hk, rfl⟩
  refine ⟨_, rfl, ?_, ?_, ?_⟩
  · show R3.length ≤ ir.length
    exact le3.trans (le2.trans (len1.le.trans le1))
  · show R3.length = ir.length ↔ ResolveAll (DF.mk interactionsCols ir)
      (DF.mk customersCols cr) (DF.mk productsCols pr) (DF.mk prodoutCategoryCols kr)
    have e3 := mergeRows_length_eq_iff R2 kr 13 0 hkn'
    have e2 := mergeRows_length_eq_iff R1A pr 2 0 hpn'
    have e1 := mergeRows_length_eq_iff ir cr 1 0 hcn'
    have hchain : R3.length = ir.length ↔
        ((∀ dr2 ∈ R2, getCell dr2 13 ∈ kr.map fun r => getCell r 0) ∧
          (∀ dr1 ∈ R1A, getCell dr1 2 ∈ pr.map fun r => getCell r 0) ∧
          (∀ lr ∈ ir, getCell lr 1 ∈ cr.map fun r => getCell r 0)) := by
      have hA : R1A.length ≤ ir.length := len1.le.trans le1
      constructor
      · intro he
        have h3 : R3.length = R2.length := le_antisymm le3 (le2.trans (hA.trans he.ge))
        have h2 : R2.length = R1A.length := le_antisymm le2 (hA.trans (he.ge.trans le3))
        have h1 : R1.length = ir.length :=
          le_antisymm le1 (he.ge.trans (le3.trans (le2.trans len1.le)))
        exact ⟨e3.mp h3, e2.mp h2, e1.mp h1⟩
      · rintro ⟨h3, h2, h1⟩
        exact (e3.mpr h3).trans ((e2.mpr h2).trans (len1.trans (e1.mpr h1)))
    rw [hchain]
    unfold ResolveAll colVals
    dsimp only
    constructor
    · rintro ⟨h3, h2, h1⟩ r hr
      obtain ⟨crow, hcrow, hkey⟩ := List.mem_map.mp (h1 r hr)
      have hdr1 := hconstruct1 r hr crow hcrow hkey
      have hc2 : getCell (r ++ crow.tail) 2 = getCell r 2 :=
        getCell_append_left r crow.tail 2 (by have := hir4 r hr; omega)
      refine ⟨h1 r hr, ?_, ?_⟩
      · have h2r := h2 _ hdr1
        rwa [hc2] at h2r
      · intro prow hprow hpk
        have hdr2 := hconstruct2 _ hdr1 prow hprow (by rw [hc2]; exact hpk)
        have h13 := h3 _ hdr2
        have h8 : (r ++ crow.tail).length = 8 := hlen8 _ hdr1
        rwa [getCell_append_right _ prow 13 (by omega), h8] at h13
    · intro hres
      refine ⟨?_, ?_, fun r hr => (hres r hr).1⟩
      · intro dr2 hdr2
        obtain ⟨dr1, prow, hdr1, hprow, hk, rfl, h13⟩ := hshape2 dr2 hdr2
        obtain ⟨lr, crow, hlr, hcrow, hck, hdr1eq, h8, hc2⟩ := hshape1 dr1 hdr1
        rw [h13]
        exact (hres lr hlr).2.2 prow hprow (by rw [hk, hc2])
      · intro dr1 hdr1
        obtain ⟨lr, crow, hlr, hcrow, hck, hdr1eq, h8, hc2⟩ := hshape1 dr1 hdr1
        rw [hc2]
        exact (hres lr hlr).2.1
  · show ∀ r ∈ ir, getCell r 2 ∉ colVals (DF.mk productsCols pr) 0 →
      ∀ ar ∈ R3, ¬ r <+: ar
    intro r hr hnores ar har hpre
    obtain ⟨dr2, hdr2, krow, hkrow, hkk, rfl⟩ := (mergeRows_mem R2 kr 13 0 ar).mp har
    obtain ⟨dr1, prow, hdr1, hprow, hpk, rfl, h13⟩ := hshape2 dr2 hdr2
    obtain ⟨lr, crow, hlr, hcrow, hck, hdr1eq, h8, hc2⟩ := hshape1 dr1 hdr1
    rw [hdr1eq] at hpre
    have hflat : ((lr ++ crow.tail) ++ prow) ++ krow =
        lr ++ (crow.tail ++ (prow ++ krow)) := by
      simp [List.append_assoc]
    rw [hflat] at hpre
    have htake := List.prefix_iff_eq_take.mp hpre
    rw [hir4 r hr] at htake
    have hlr4 := hir4 lr hlr
    have htl : (lr ++ (crow.tail ++ (prow ++ krow))).take 4 = lr := by
      rw [← hlr4]
      exact List.take_left _ _
    rw [htl] at htake
    subst htake
    apply hnores
    exact List.mem_map.mpr ⟨prow, hprow, by rw [hpk, hc2]⟩

/-- Witness for C4 on the concrete fixtures (all keys resolve). -/
theorem aggregate_data_rowcount_witness :
    (iFix.cols = interactionsCols ∧ Rect iFix ∧ cFix.cols = customersCols ∧ Rect cFix ∧
      (colVals cFix 0).Nodup ∧ pFix.cols = productsCols ∧ Rect pFix ∧
      (colVals pFix 0).Nodup ∧ kFix.cols = prodoutCategoryCols ∧ Rect kFix ∧
      (colVals kFix 0).Nodup) ∧
    ∃ agg, aggregate_data (some iFix) (some cFix) (some pFix) (some kFix) =
        Except.ok agg ∧
      agg.rows.length ≤ iFix.rows.length ∧
      (agg.rows.length = iFix.rows.length ↔ ResolveAll iFix cFix pFix kFix) ∧
      (∀ r ∈ iFix.rows, getCell r 2 ∉ colVals pFix 0 → ∀ ar ∈ agg.rows, ¬ r <+: ar) :=
  ⟨⟨rfl, by decide, rfl, by decide, by decide, rfl, by decide, by decide, rfl, by decide,
      by decide⟩,
    aggregate_data_rowcount iFix cFix pFix kFix rfl (by decide) rfl (by decide) (by decide)
      rfl (by decide) (by decide) rfl (by decide) (by decide)⟩
